import Mathlib

/-!
Shallow embedding of `src/installer.rs` (Hachimi Installer).

Paths are modelled as lists of components (`PathBuf::join` appends a
component, `Path::parent` drops the last one). The filesystem is a finite
association list from paths to byte lists plus a set of directories.
Machine integers are `Nat`. External collaborators that installer.rs only
calls (the PE version-resource parser from `utils.rs`, the Windows
registry, message boxes, and the I/O success/failure of each filesystem
call) are passed in explicitly as parameters or oracle records, so the
control flow of installer.rs itself is translated verbatim.
-/

namespace Hachimi

abbrev Bytes := List Nat
abbrev FsPath := List String

/-- `Target` enum from installer.rs: the single variant `UnityPlayer`. -/
inductive Target where
  | UnityPlayer
deriving DecidableEq, Repr

/-- `Target::VALUES`: the catalog in declaration order. -/
def Target.VALUES : List Target := [Target.UnityPlayer]

/-- `Target::dll_name`. -/
def Target.dll_name : Target → String
  | Target.UnityPlayer => "UnityPlayer.dll"

/-- `TargetType` enum: the single variant `DotLocal`. -/
inductive TargetType where
  | DotLocal
deriving DecidableEq, Repr

/-- `impl From<Target> for TargetType`. -/
def TargetType.fromTarget : Target → TargetType
  | Target.UnityPlayer => TargetType.DotLocal

/-- `TargetVersionInfo` struct. -/
structure TargetVersionInfo where
  name : Option String := none
  version : Option String := none
deriving DecidableEq, Repr

/-- `TargetVersionInfo::is_hachimi`. -/
def TargetVersionInfo.is_hachimi (vi : TargetVersionInfo) : Bool :=
  match vi.name with
  | some name => name == "Hachimi"
  | none => false

/-- `TargetVersionInfo::get_display_label`: `format!("* {} ({})", ...)`. -/
def TargetVersionInfo.get_display_label (vi : TargetVersionInfo) (target : Target) : String :=
  let name := vi.name.getD "Unknown"
  "* " ++ target.dll_name ++ " (" ++ name ++ ")"

/-- `Error` enum (payloads of the I/O and registry variants elided). -/
inductive Error where
  | NoInstallDir
  | IoError
  | RegistryValueError
deriving DecidableEq, Repr

/-- `Installer` struct (the `HWND` handle is an opaque number). -/
structure Installer where
  install_dir : Option FsPath
  target : Target
  custom_target : Option String
  hwnd : Option Nat := none
deriving DecidableEq, Repr

/-- `Installer::get_target_path_internal`: `install_dir? / "umamusume.exe.local" / p`. -/
def Installer.get_target_path_internal (ins : Installer) (_target : Target) (p : String) :
    Option FsPath :=
  match ins.install_dir with
  | none => none
  | some d => some (d ++ ["umamusume.exe.local", p])

/-- `Installer::get_target_path`. -/
def Installer.get_target_path (ins : Installer) (target : Target) : Option FsPath :=
  ins.get_target_path_internal target target.dll_name

/-- `Installer::get_current_target_path`. -/
def Installer.get_current_target_path (ins : Installer) : Option FsPath :=
  ins.get_target_path_internal ins.target
    (match ins.custom_target with
     | some custom_target => custom_target
     | none => ins.target.dll_name)

/-- A filesystem snapshot: files as an association list from path to byte
contents, plus the set of directories that exist. -/
structure FS where
  files : List (FsPath × Bytes)
  dirs : List FsPath
deriving DecidableEq, Repr

/-- Read a file's bytes (`pelite::FileMap::open` / `std::fs::read`): present
iff the file exists. -/
def FS.readFile (fs : FS) (p : FsPath) : Option Bytes :=
  fs.files.lookup p

/-- Replace-or-append write used to model `File::create` + `write`. -/
def setAssoc (l : List (FsPath × Bytes)) (p : FsPath) (b : Bytes) : List (FsPath × Bytes) :=
  match l with
  | [] => [(p, b)]
  | (q, c) :: t => if q == p then (p, b) :: t else (q, c) :: setAssoc t p b

/-- Write (create or truncate-and-overwrite) a file. -/
def FS.writeFile (fs : FS) (p : FsPath) (b : Bytes) : FS :=
  { fs with files := setAssoc fs.files p b }

/-- `std::fs::create_dir_all`: the directory and its ancestors exist afterwards. -/
def FS.create_dir_all (fs : FS) (p : FsPath) : FS :=
  let ancestors := (List.range (p.length + 1)).map (fun n => p.take n)
  let dirs := ancestors.foldl (fun acc q => if q ∈ acc then acc else q :: acc) fs.dirs
  { fs with dirs := dirs }

/-- `std::fs::remove_file`: fails (with an I/O error) iff the file does not exist. -/
def FS.remove_file (fs : FS) (p : FsPath) : Except Error FS :=
  match fs.files.lookup p with
  | some _ => Except.ok { fs with files := fs.files.filter (fun e => !(e.1 == p)) }
  | none => Except.error Error.IoError

/-- `std::fs::remove_dir`: succeeds iff the directory exists and is empty
(no file and no other directory lies strictly below it). -/
def FS.remove_dir (fs : FS) (p : FsPath) : Except Error FS :=
  if p ∈ fs.dirs
      ∧ fs.files.all (fun e => !(List.isPrefixOf p e.1))
      ∧ fs.dirs.all (fun q => !(List.isPrefixOf p q && q != p)) then
    Except.ok { fs with dirs := fs.dirs.filter (fun q => !(q == p)) }
  else
    Except.error Error.IoError

/-- Outcome of each fallible I/O call in `install`/`post_install`; the Rust
code observes only success or failure of each operation. -/
structure IOOracle where
  createDirOk : Bool := true
  createOk : Bool := true
  writeOk : Bool := true
deriving DecidableEq, Repr

/-- The two embedded payloads, opaque binary blobs bundled with the
installer (`include_bytes!("../hachimi.dll")` and `"../cellar.dll"`). -/
structure Payloads where
  hachimi : Bytes
  cellar : Bytes
deriving DecidableEq, Repr

/-- `Installer::install`, returning the Rust `Result` together with the
filesystem it leaves behind.  A failed `File::create` leaves the file
absent; a failed `write` leaves the file truncated (created empty). -/
def Installer.install (ins : Installer) (pay : Payloads) (io : IOOracle) (fs : FS) :
    Except Error Unit × FS :=
  match ins.get_current_target_path with
  | none => (Except.error Error.NoInstallDir, fs)
  | some path =>
    if !io.createDirOk then (Except.error Error.IoError, fs)
    else
      let fs1 := fs.create_dir_all path.dropLast
      if !io.createOk then (Except.error Error.IoError, fs1)
      else if !io.writeOk then (Except.error Error.IoError, fs1.writeFile path [])
      else (Except.ok (), fs1.writeFile path pay.hachimi)

/-- `Installer::uninstall`: remove the current target file (propagating
failure), then for the DotLocal topology try to remove the overlay
directory, discarding the result (`_ = std::fs::remove_dir(..)`). -/
def Installer.uninstall (ins : Installer) (fs : FS) : Except Error Unit × FS :=
  match ins.get_current_target_path with
  | none => (Except.error Error.NoInstallDir, fs)
  | some path =>
    match fs.remove_file path with
    | Except.error e => (Except.error e, fs)
    | Except.ok fs1 =>
      match TargetType.fromTarget ins.target with
      | TargetType.DotLocal =>
        match fs1.remove_dir path.dropLast with
        | Except.ok fs2 => (Except.ok (), fs2)
        | Except.error _ => (Except.ok (), fs1)

/-- `pelite::resources::version_info::Language`. -/
structure Language where
  lang_id : Nat
  charset_id : Nat
deriving DecidableEq, Repr

/-- `Installer::LANG_NEUTRAL_UNICODE`. -/
def LANG_NEUTRAL_UNICODE : Language := { lang_id := 0x0000, charset_id := 0x04b0 }

/-- A parsed PE version-resource table: `value(language, key)` as in pelite. -/
structure VersionInfo where
  value : Language → String → Option String

/-- `Installer::get_target_version_info`.  `reader` stands for
`utils::read_pe_version_info` (external to installer.rs): it parses the
bytes of an on-disk file into a version-resource table, `none` when the
file is not a parseable module image. -/
def Installer.get_target_version_info (ins : Installer)
    (reader : Bytes → Option VersionInfo) (fs : FS) (target : Target) :
    Option TargetVersionInfo :=
  match ins.get_target_path target with
  | none => none
  | some path =>
    match fs.readFile path with
    | none => none
    | some bytes =>
      match reader bytes with
      | none => some {}
      | some vi =>
        some { name := vi.value LANG_NEUTRAL_UNICODE "ProductName",
               version := vi.value LANG_NEUTRAL_UNICODE "ProductVersion" }

/-- `Installer::get_target_display_label`. -/
def Installer.get_target_display_label (ins : Installer)
    (reader : Bytes → Option VersionInfo) (fs : FS) (target : Target) : String :=
  match ins.get_target_version_info reader fs target with
  | some version_info => version_info.get_display_label target
  | none => target.dll_name

/-- `Installer::get_hachimi_installed_target`'s `for` loop over a list of
candidate targets. -/
def hachimiScan (ins : Installer) (reader : Bytes → Option VersionInfo) (fs : FS) :
    List Target → Option Target
  | [] => none
  | target :: rest =>
    match ins.get_target_version_info reader fs target with
    | some version_info =>
      if version_info.is_hachimi then some target
      else hachimiScan ins reader fs rest
    | none => hachimiScan ins reader fs rest

/-- `Installer::get_hachimi_installed_target`. -/
def Installer.get_hachimi_installed_target (ins : Installer)
    (reader : Bytes → Option VersionInfo) (fs : FS) : Option Target :=
  hachimiScan ins reader fs Target.VALUES

/-- `registry::Data` as observed by post_install: a DWORD or anything else. -/
inductive RegData where
  | U32 (v : Nat)
  | Other
deriving DecidableEq, Repr

/-- The one registry location the program touches: the `DevOverrideEnable`
value under the IFEO key (`none` when the value is missing or unreadable). -/
structure RegState where
  devOverrideEnable : Option RegData
deriving DecidableEq, Repr

/-- The `.ok().map(U32 ⇒ v, _ ⇒ 0).unwrap_or(0)` chain reading the flag. -/
def RegState.readFlag (reg : RegState) : Nat :=
  match reg.devOverrideEnable with
  | some (RegData.U32 v) => v
  | some RegData.Other => 0
  | none => 0

/-- External outcomes during `post_install`: the I/O oracle for the cellar
write, whether the IFEO key opens, whether `set_value` succeeds, and the
user's answer to the OK/Cancel confirmation. -/
structure PostEnv where
  io : IOOracle := {}
  regOpenOk : Bool := true
  regSetOk : Bool := true
  userOk : Bool := true
deriving DecidableEq, Repr

/-- User-visible dialogs shown by `post_install`. -/
inductive Event where
  | warnOpenFailed
  | promptEnable
  | infoRestart
deriving DecidableEq, Repr

/-- `Installer::post_install` (the `TargetType::DotLocal` arm, the only one):
write `cellar.dll` as `apphelp.dll` into the overlay directory, then open
the IFEO key; on open failure show a warning and succeed; otherwise, when
the flag reads 0, ask the user and on OK write `U32 1` (propagating a
`set_value` failure) and show the restart notice. -/
def Installer.post_install (ins : Installer) (pay : Payloads) (env : PostEnv)
    (fs : FS) (reg : RegState) : Except Error Unit × FS × RegState × List Event :=
  match ins.install_dir with
  | none => (Except.error Error.NoInstallDir, fs, reg, [])
  | some d =>
    let path := d ++ ["umamusume.exe.local", "apphelp.dll"]
    if !env.io.createDirOk then (Except.error Error.IoError, fs, reg, [])
    else
      let fs1 := fs.create_dir_all path.dropLast
      if !env.io.createOk then (Except.error Error.IoError, fs1, reg, [])
      else if !env.io.writeOk then (Except.error Error.IoError, fs1.writeFile path [], reg, [])
      else
        let fs2 := fs1.writeFile path pay.cellar
        if env.regOpenOk then
          if reg.readFlag == 0 then
            if env.userOk then
              if env.regSetOk then
                (Except.ok (), fs2, { devOverrideEnable := some (RegData.U32 1) },
                  [Event.promptEnable, Event.infoRestart])
              else
                (Except.error Error.RegistryValueError, fs2, reg, [Event.promptEnable])
            else
              (Except.ok (), fs2, reg, [Event.promptEnable])
          else
            (Except.ok (), fs2, reg, [])
        else
          (Except.ok (), fs2, reg, [Event.warnOpenFailed])

/-- tinyjson's `JsonValue`.  Number payloads are elided: `detect_install_dir`
never inspects a numeric value, only the constructor. -/
inductive Json where
  | null
  | bool (b : Bool)
  | num
  | str (s : String)
  | arr (xs : List Json)
  | obj (kvs : List (String × Json))

/-- Result of `detect_install_dir`'s JSON scan: either a normal return of an
optional path string, or a panic — `config["contents"]` etc. index a
`HashMap`, whose `Index` impl panics when the key is missing. -/
inductive DetectResult where
  | panics
  | ret (r : Option String)
deriving DecidableEq, Repr

/-- The `for value in config_contents` loop of `detect_install_dir`.
`is_dir` stands for `Path::is_dir` on the external filesystem. -/
def scanContents (is_dir : String → Bool) : List Json → DetectResult
  | [] => DetectResult.ret none
  | value :: rest =>
    match value with
    | Json.obj game =>
      match game.lookup "productId" with
      | none => DetectResult.panics
      | some (Json.str product_id) =>
        if product_id != "umamusume" then scanContents is_dir rest
        else
          match game.lookup "detail" with
          | none => DetectResult.panics
          | some (Json.obj detail) =>
            match detail.lookup "path" with
            | none => DetectResult.panics
            | some (Json.str path_str) =>
              if is_dir path_str then DetectResult.ret (some path_str)
              else DetectResult.ret none
            | some _ => DetectResult.ret none
          | some _ => DetectResult.ret none
      | some _ => scanContents is_dir rest
    | _ => DetectResult.ret none

/-- `Installer::detect_install_dir` from the point where `dmmgame.cnf` has
been read and parsed into a `JsonValue` (the earlier special-folder and
file-read failures all return `None` via `.ok()?`). -/
def detect_install_dir_from_json (is_dir : String → Bool) (j : Json) : DetectResult :=
  match j with
  | Json.obj config =>
    match config.lookup "contents" with
    | none => DetectResult.panics
    | some (Json.arr config_contents) => scanContents is_dir config_contents
    | some _ => DetectResult.ret none
  | _ => DetectResult.ret none

/-- Concrete sample state: an installer with a known base directory and no
custom target name. -/
def insD : Installer :=
  { install_dir := some ["D:", "game"], target := Target.UnityPlayer, custom_target := none }

/-- Concrete sample state: the empty filesystem. -/
def fs0 : FS := { files := [], dirs := [] }

/-- Concrete sample payloads. -/
def pay0 : Payloads := { hachimi := [1, 2, 3], cellar := [4] }

/-- The resolved target path of `insD`. -/
def pathD : FsPath := ["D:", "game", "umamusume.exe.local", "UnityPlayer.dll"]

/-- Constructor discriminator used to state shape conditions. -/
def Json.isObj : Json → Bool
  | Json.obj _ => true
  | _ => false

/-- Constructor discriminator used to state shape conditions. -/
def Json.isArr : Json → Bool
  | Json.arr _ => true
  | _ => false

/-- Constructor discriminator used to state shape conditions. -/
def Json.isStr : Json → Bool
  | Json.str _ => true
  | _ => false

/-- Concrete sample version-resource table: ProductName "Hachimi",
ProductVersion "1.0.0" under the language-neutral Unicode key. -/
def viH : VersionInfo :=
  { value := fun l k =>
      if l = LANG_NEUTRAL_UNICODE then
        if k = "ProductName" then some "Hachimi"
        else if k = "ProductVersion" then some "1.0.0"
        else none
      else none }

/-- Concrete sample PE parser: the byte string `[1]` parses into `viH`,
everything else is not a valid module image. -/
def readerH : Bytes → Option VersionInfo :=
  fun b => if b = [1] then some viH else none

/-- Concrete sample filesystem: the current target file of `insD` exists
with bytes `[1]`. -/
def fsH : FS := { files := [(pathD, [1])], dirs := [] }

end Hachimi

namespace Hachimi

/-- C5 helper: the path both functions produce under a known base `d`. -/
def overlayPath (d : FsPath) (name : String) : FsPath :=
  d ++ ["umamusume.exe.local", name]

/-- **C5**: `get_target_path`/`get_current_target_path` return `none` iff no base
install directory is resolved; otherwise the result is the base directory
joined with the fixed overlay folder `"umamusume.exe.local"` joined with the
file name, where `get_current_target_path` substitutes the custom override
exactly when present and `get_target_path` never uses the override. -/
theorem target_path_spec (ins : Installer) (target : Target) :
    (ins.get_target_path target = none ↔ ins.install_dir = none) ∧
    (ins.get_current_target_path = none ↔ ins.install_dir = none) ∧
    (∀ d : FsPath, ins.install_dir = some d →
      ins.get_target_path target = some (overlayPath d target.dll_name)) ∧
    (∀ d : FsPath, ins.install_dir = some d → ∀ c : String, ins.custom_target = some c →
      ins.get_current_target_path = some (overlayPath d c)) ∧
    (∀ d : FsPath, ins.install_dir = some d → ins.custom_target = none →
      ins.get_current_target_path = some (overlayPath d ins.target.dll_name)) := by
  unfold Installer.get_target_path Installer.get_current_target_path
    Installer.get_target_path_internal overlayPath
  cases h : ins.install_dir <;> cases hc : ins.custom_target <;>
    simp_all

/-- Witness for C5 at a concrete installer state. -/
theorem target_path_spec_witness :
    ({ install_dir := some ["C:", "uma"], target := Target.UnityPlayer,
       custom_target := some "version.dll" } : Installer).get_current_target_path
      = some ["C:", "uma", "umamusume.exe.local", "version.dll"] :=
  (target_path_spec
      { install_dir := some ["C:", "uma"], target := Target.UnityPlayer,
        custom_target := some "version.dll" }
      Target.UnityPlayer).2.2.2.1 ["C:", "uma"] rfl "version.dll" rfl

/-- Helper: looking up the freshly written key in `setAssoc` yields the new bytes. -/
theorem lookup_setAssoc (l : List (FsPath × Bytes)) (p : FsPath) (b : Bytes) :
    (setAssoc l p b).lookup p = some b := by
  induction l with
  | nil => simp [setAssoc, List.lookup]
  | cons hd t ih =>
    obtain ⟨q, c⟩ := hd
    by_cases hqp : q = p
    · subst hqp
      simp [setAssoc, List.lookup]
    · have hq : (q == p) = false := beq_eq_false_iff_ne.mpr hqp
      have hp : (p == q) = false := beq_eq_false_iff_ne.mpr (Ne.symm hqp)
      simp [setAssoc, hq, hp, List.lookup, ih]

/-- Helper: reading back a written file. -/
theorem readFile_writeFile (fs : FS) (p : FsPath) (b : Bytes) :
    (fs.writeFile p b).readFile p = some b := by
  simp [FS.readFile, FS.writeFile, lookup_setAssoc]

/-- Helper: `get_current_target_path` is `none` exactly when `install_dir` is. -/
theorem current_path_none_iff (ins : Installer) :
    ins.get_current_target_path = none ↔ ins.install_dir = none := by
  unfold Installer.get_current_target_path Installer.get_target_path_internal
  cases ins.install_dir <;> simp

/-- **C1**: `install()` fails with `NoInstallDir` when no base install directory
is known; otherwise, whenever it returns success, the file at the resolved
current target path exists and its bytes equal the embedded hachimi.dll
payload. -/
theorem install_spec (ins : Installer) (pay : Payloads) (io : IOOracle) (fs : FS) :
    (ins.install_dir = none →
      (ins.install pay io fs).1 = Except.error Error.NoInstallDir) ∧
    (∀ path : FsPath, ins.get_current_target_path = some path →
      (ins.install pay io fs).1 = Except.ok () →
      (ins.install pay io fs).2.readFile path = some pay.hachimi) := by
  constructor
  · intro h
    have hnone : ins.get_current_target_path = none := (current_path_none_iff ins).mpr h
    simp [Installer.install, hnone]
  · intro path hpath hok
    unfold Installer.install at hok ⊢
    rw [hpath] at hok ⊢
    by_cases h1 : io.createDirOk <;> by_cases h2 : io.createOk <;>
      by_cases h3 : io.writeOk <;>
      simp [h1, h2, h3] at hok ⊢
    exact readFile_writeFile _ _ _

/-- Witness for C1: a concrete state where install succeeds and the file holds
the payload. -/
theorem install_spec_witness :
    (insD.install pay0 {} fs0).2.readFile pathD = some pay0.hachimi :=
  (install_spec insD pay0 {} fs0).2 pathD rfl rfl

/-- **C8**: with a known base directory and I/O succeeding, running `install()`
twice in succession leaves the target file with exactly the contents a single
`install()` produces (the second call fully overwrites the first). -/
theorem install_idempotent (ins : Installer) (pay : Payloads) (fs : FS) (d : FsPath)
    (_hdir : ins.install_dir = some d) :
    ∀ path : FsPath, ins.get_current_target_path = some path →
      (ins.install pay {} ((ins.install pay {} fs).2)).2.readFile path
        = (ins.install pay {} fs).2.readFile path ∧
      (ins.install pay {} ((ins.install pay {} fs).2)).2.readFile path
        = some pay.hachimi := by
  intro path hpath
  have hone : (ins.install pay {} fs).2.readFile path = some pay.hachimi := by
    unfold Installer.install
    rw [hpath]
    simpa using readFile_writeFile _ path pay.hachimi
  have htwo : (ins.install pay {} ((ins.install pay {} fs).2)).2.readFile path
      = some pay.hachimi := by
    unfold Installer.install
    rw [hpath]
    simpa using readFile_writeFile _ path pay.hachimi
  exact ⟨htwo.trans hone.symm, htwo⟩

/-- Witness for C8 at a concrete state. -/
theorem install_idempotent_witness :
    (insD.install pay0 {} ((insD.install pay0 {} fs0).2)).2.readFile pathD
      = some pay0.hachimi :=
  (install_idempotent insD pay0 fs0 ["D:", "game"] rfl pathD rfl).2

/-- **C6**: `uninstall()` propagates a failure of removing the target file
(in particular when the file does not exist), while a failure of the
subsequent overlay-directory removal is swallowed: whenever the file removal
succeeds, `uninstall` returns success no matter what `remove_dir` does. -/
theorem uninstall_spec (ins : Installer) (fs : FS) :
    ∀ path : FsPath, ins.get_current_target_path = some path →
      (fs.readFile path = none →
        (ins.uninstall fs).1 = Except.error Error.IoError) ∧
      (∀ fs1 : FS, fs.remove_file path = Except.ok fs1 →
        (ins.uninstall fs).1 = Except.ok ()) := by
  intro path hpath
  constructor
  · intro hnofile
    have hrm : fs.remove_file path = Except.error Error.IoError := by
      unfold FS.remove_file
      unfold FS.readFile at hnofile
      rw [hnofile]
    simp [Installer.uninstall, hpath, hrm]
  · intro fs1 hrm
    simp only [Installer.uninstall, hpath, hrm]
    cases htt : TargetType.fromTarget ins.target
    cases hrd : fs1.remove_dir path.dropLast <;> simp [htt, hrd]

/-- Witness for C6: removing a missing file propagates the I/O error. -/
theorem uninstall_spec_witness :
    (insD.uninstall fs0).1 = Except.error Error.IoError :=
  (uninstall_spec insD fs0 pathD rfl).1 rfl

/-- Helper: `get_target_path` is `none` when no base directory is known. -/
theorem target_path_none_of_dir_none (ins : Installer) (target : Target)
    (h : ins.install_dir = none) : ins.get_target_path target = none := by
  simp [Installer.get_target_path, Installer.get_target_path_internal, h]

/-- **C3**: `get_target_version_info` returns `none` when the target's file
does not exist (in particular when no base directory is known); when the file
exists but its bytes are not a parseable module image it returns a present
record with both fields absent; otherwise the fields are the `ProductName`
and `ProductVersion` strings under the fixed language-neutral/Unicode key. -/
theorem version_info_spec (ins : Installer) (reader : Bytes → Option VersionInfo)
    (fs : FS) (target : Target) :
    (ins.install_dir = none → ins.get_target_version_info reader fs target = none) ∧
    (∀ path : FsPath, ins.get_target_path target = some path →
      (fs.readFile path = none → ins.get_target_version_info reader fs target = none) ∧
      (∀ bytes : Bytes, fs.readFile path = some bytes →
        (reader bytes = none →
          ins.get_target_version_info reader fs target
            = some { name := none, version := none }) ∧
        (∀ vi : VersionInfo, reader bytes = some vi →
          ins.get_target_version_info reader fs target
            = some { name := vi.value LANG_NEUTRAL_UNICODE "ProductName",
                     version := vi.value LANG_NEUTRAL_UNICODE "ProductVersion" }))) := by
  constructor
  · intro h
    simp [Installer.get_target_version_info, target_path_none_of_dir_none ins target h]
  · intro path hpath
    constructor
    · intro hnofile
      simp [Installer.get_target_version_info, hpath, hnofile]
    · intro bytes hbytes
      constructor
      · intro hnoparse
        simp [Installer.get_target_version_info, hpath, hbytes, hnoparse]
      · intro vi hvi
        simp [Installer.get_target_version_info, hpath, hbytes, hvi]

/-- Witness for C3: a parseable on-disk file yields the two resource strings. -/
theorem version_info_spec_witness :
    insD.get_target_version_info readerH fsH Target.UnityPlayer
      = some { name := viH.value LANG_NEUTRAL_UNICODE "ProductName",
               version := viH.value LANG_NEUTRAL_UNICODE "ProductVersion" } :=
  (((version_info_spec insD readerH fsH Target.UnityPlayer).2 pathD rfl).2 [1] rfl).2 viH rfl

/-- Helper: the scanning loop of `get_hachimi_installed_target` is `find?`
over the candidate list. -/
theorem hachimiScan_eq_find (ins : Installer) (reader : Bytes → Option VersionInfo)
    (fs : FS) (l : List Target) :
    hachimiScan ins reader fs l
      = l.find? (fun t =>
          match ins.get_target_version_info reader fs t with
          | some vi => vi.is_hachimi
          | none => false) := by
  induction l with
  | nil => rfl
  | cons t rest ih =>
    unfold hachimiScan
    cases h : ins.get_target_version_info reader fs t with
    | none => simp [List.find?, h, ih]
    | some vi =>
      cases hh : vi.is_hachimi <;> simp [List.find?, h, hh, ih]

/-- **C7**: `get_hachimi_installed_target` returns the first `Target` in
`Target::VALUES` declaration order whose version info has a present name
exactly equal to `"Hachimi"` (and `none` when no target qualifies); a version
info with an absent name never matches. -/
theorem hachimi_target_spec (ins : Installer) (reader : Bytes → Option VersionInfo)
    (fs : FS) :
    ins.get_hachimi_installed_target reader fs
      = Target.VALUES.find? (fun t =>
          match ins.get_target_version_info reader fs t with
          | some vi => vi.is_hachimi
          | none => false) ∧
    (∀ vi : TargetVersionInfo, vi.is_hachimi = true ↔ vi.name = some "Hachimi") ∧
    (∀ v : Option String,
      TargetVersionInfo.is_hachimi { name := none, version := v } = false) := by
  refine ⟨hachimiScan_eq_find ins reader fs Target.VALUES, ?_, ?_⟩
  · intro vi
    cases hn : vi.name with
    | none => simp [TargetVersionInfo.is_hachimi, hn]
    | some n => simp [TargetVersionInfo.is_hachimi, hn]
  · intro v
    simp [TargetVersionInfo.is_hachimi]

/-- Witness for C7: with a "Hachimi"-named file on disk the first (only)
catalog target is returned. -/
theorem hachimi_target_spec_witness :
    insD.get_hachimi_installed_target readerH fsH = some Target.UnityPlayer :=
  ((hachimi_target_spec insD readerH fsH).1).trans rfl

/-- **C9 counterexample**: with version info present (name "Hachimi"), the
label produced by the code is `"* UnityPlayer.dll (Hachimi)"`, not the
claimed `"UnityPlayer.dll (Hachimi)"` with nothing prepended. -/
theorem display_label_counterexample :
    insD.get_target_display_label readerH fsH Target.UnityPlayer
        = "* UnityPlayer.dll (Hachimi)" ∧
      "* UnityPlayer.dll (Hachimi)" ≠ "UnityPlayer.dll (Hachimi)" := by
  constructor
  · rfl
  · decide

/-- **C9 amended**: whenever version info is obtainable the label is
`"* " ++ file-name ++ " (" ++ display-name-or-"Unknown" ++ ")"` (the code
prepends `"* "`); when no version info is obtainable the bare file name is
returned. -/
theorem display_label_amended (ins : Installer) (reader : Bytes → Option VersionInfo)
    (fs : FS) (target : Target) :
    (∀ vi : TargetVersionInfo, ins.get_target_version_info reader fs target = some vi →
      ins.get_target_display_label reader fs target
        = "* " ++ target.dll_name ++ " (" ++ vi.name.getD "Unknown" ++ ")") ∧
    (ins.get_target_version_info reader fs target = none →
      ins.get_target_display_label reader fs target = target.dll_name) := by
  constructor
  · intro vi hvi
    simp [Installer.get_target_display_label, hvi, TargetVersionInfo.get_display_label]
  · intro hnone
    simp [Installer.get_target_display_label, hnone]

/-- Witness for C9 (amended) at a concrete state with version info present. -/
theorem display_label_amended_witness :
    insD.get_target_display_label readerH fsH Target.UnityPlayer
      = "* " ++ Target.UnityPlayer.dll_name ++ " ("
          ++ (Option.getD (some "Hachimi") "Unknown") ++ ")" :=
  (display_label_amended insD readerH fsH Target.UnityPlayer).1
    { name := some "Hachimi", version := some "1.0.0" } rfl

/-- **C2**: in `post_install` for the DotLocal topology (with the cellar file
I/O succeeding): if opening the IFEO registry key fails, only a warning is
shown, the flag is untouched and the result is success; if the key opens and
the flag already reads nonzero, the flag is not written; if the flag reads 0
and the user confirms with OK, the flag is written to `U32 1`; if the user
declines, the flag is untouched and the result is success. -/
theorem post_install_registry_spec (ins : Installer) (pay : Payloads) (env : PostEnv)
    (fs : FS) (reg : RegState) (d : FsPath)
    (hdir : ins.install_dir = some d)
    (h1 : env.io.createDirOk = true) (h2 : env.io.createOk = true)
    (h3 : env.io.writeOk = true) :
    (env.regOpenOk = false →
      (ins.post_install pay env fs reg).1 = Except.ok () ∧
      (ins.post_install pay env fs reg).2.2.1 = reg ∧
      (ins.post_install pay env fs reg).2.2.2 = [Event.warnOpenFailed]) ∧
    (env.regOpenOk = true → reg.readFlag ≠ 0 →
      (ins.post_install pay env fs reg).2.2.1 = reg ∧
      (ins.post_install pay env fs reg).1 = Except.ok ()) ∧
    (env.regOpenOk = true → reg.readFlag = 0 → env.userOk = true → env.regSetOk = true →
      (ins.post_install pay env fs reg).2.2.1
          = { devOverrideEnable := some (RegData.U32 1) } ∧
      (ins.post_install pay env fs reg).1 = Except.ok ()) ∧
    (env.regOpenOk = true → reg.readFlag = 0 → env.userOk = false →
      (ins.post_install pay env fs reg).2.2.1 = reg ∧
      (ins.post_install pay env fs reg).1 = Except.ok ()) := by
  unfold Installer.post_install
  rw [hdir]
  refine ⟨?_, ?_, ?_, ?_⟩
  · intro hro
    simp [h1, h2, h3, hro]
  · intro hro hflag
    have hb : (reg.readFlag == 0) = false := beq_eq_false_iff_ne.mpr hflag
    simp [h1, h2, h3, hro, hb]
  · intro hro hflag huser hset
    have hb : (reg.readFlag == 0) = true := beq_iff_eq.mpr hflag
    simp [h1, h2, h3, hro, hb, huser, hset]
  · intro hro hflag huser
    have hb : (reg.readFlag == 0) = true := beq_iff_eq.mpr hflag
    simp [h1, h2, h3, hro, hb, huser]

/-- Witness for C2: flag initially absent (reads 0), user confirms, flag is
written to the enabled value and the call succeeds. -/
theorem post_install_registry_spec_witness :
    (insD.post_install pay0 {} fs0 { devOverrideEnable := none }).2.2.1
        = { devOverrideEnable := some (RegData.U32 1) } ∧
      (insD.post_install pay0 {} fs0 { devOverrideEnable := none }).1 = Except.ok () :=
  (post_install_registry_spec insD pay0 {} fs0 { devOverrideEnable := none }
      ["D:", "game"] rfl rfl rfl rfl).2.2.1 rfl rfl rfl rfl

/-- **C4 counterexample**: a JSON object with the `"contents"` key missing
makes `detect_install_dir` panic (the `HashMap` `Index` impl aborts on a
missing key), not return `None` as the claim states. -/
theorem detect_missing_key_counterexample :
    detect_install_dir_from_json (fun _ => false) (Json.obj []) = DetectResult.panics ∧
      DetectResult.panics ≠ DetectResult.ret none := by
  constructor
  · rfl
  · decide

/-- **C4 amended**: a wrong JSON shape or a wrong type for a *present* key
(non-object document, non-array `contents`, non-object entry, non-object
`detail`, non-string `path`) makes the strategy return `None` without
panicking; a non-string `productId` merely skips that entry and scanning
continues; but a *missing* key (`contents`, `productId`, `detail` or `path`
where it is demanded) makes the strategy panic. -/
theorem detect_defensive_amended (is_dir : String → Bool) :
    (∀ j : Json, Json.isObj j = false →
      detect_install_dir_from_json is_dir j = DetectResult.ret none) ∧
    (∀ kvs : List (String × Json), ∀ v : Json, kvs.lookup "contents" = some v →
      Json.isArr v = false →
      detect_install_dir_from_json is_dir (Json.obj kvs) = DetectResult.ret none) ∧
    (∀ kvs : List (String × Json), kvs.lookup "contents" = none →
      detect_install_dir_from_json is_dir (Json.obj kvs) = DetectResult.panics) ∧
    (∀ v : Json, ∀ rest : List Json, Json.isObj v = false →
      scanContents is_dir (v :: rest) = DetectResult.ret none) ∧
    (∀ game : List (String × Json), ∀ rest : List Json,
      game.lookup "productId" = none →
      scanContents is_dir (Json.obj game :: rest) = DetectResult.panics) ∧
    (∀ game : List (String × Json), ∀ rest : List Json, ∀ pid : Json,
      game.lookup "productId" = some pid → Json.isStr pid = false →
      scanContents is_dir (Json.obj game :: rest) = scanContents is_dir rest) ∧
    (∀ game : List (String × Json), ∀ rest : List Json,
      game.lookup "productId" = some (Json.str "umamusume") →
      game.lookup "detail" = none →
      scanContents is_dir (Json.obj game :: rest) = DetectResult.panics) ∧
    (∀ game : List (String × Json), ∀ rest : List Json, ∀ dv : Json,
      game.lookup "productId" = some (Json.str "umamusume") →
      game.lookup "detail" = some dv → Json.isObj dv = false →
      scanContents is_dir (Json.obj game :: rest) = DetectResult.ret none) ∧
    (∀ game : List (String × Json), ∀ rest : List Json,
      ∀ detail : List (String × Json),
      game.lookup "productId" = some (Json.str "umamusume") →
      game.lookup "detail" = some (Json.obj detail) →
      detail.lookup "path" = none →
      scanContents is_dir (Json.obj game :: rest) = DetectResult.panics) ∧
    (∀ game : List (String × Json), ∀ rest : List Json,
      ∀ detail : List (String × Json), ∀ pv : Json,
      game.lookup "productId" = some (Json.str "umamusume") →
      game.lookup "detail" = some (Json.obj detail) →
      detail.lookup "path" = some pv → Json.isStr pv = false →
      scanContents is_dir (Json.obj game :: rest) = DetectResult.ret none) := by
  refine ⟨?_, ?_, ?_, ?_, ?_, ?_, ?_, ?_, ?_, ?_⟩
  · intro j hj
    cases j <;> simp [Json.isObj] at hj ⊢ <;> rfl
  · intro kvs v hv hshape
    cases v <;> simp [Json.isArr] at hshape ⊢ <;>
      simp [detect_install_dir_from_json, hv]
  · intro kvs hnone
    simp [detect_install_dir_from_json, hnone]
  · intro v rest hv
    cases v <;> simp [Json.isObj] at hv ⊢ <;> rfl
  · intro game rest hnone
    simp [scanContents, hnone]
  · intro game rest pid hpid hshape
    cases pid <;> simp [Json.isStr] at hshape ⊢ <;> simp [scanContents, hpid]
  · intro game rest hpid hnone
    simp [scanContents, hpid, hnone]
  · intro game rest dv hpid hdv hshape
    cases dv <;> simp [Json.isObj] at hshape ⊢ <;> simp [scanContents, hpid, hdv]
  · intro game rest detail hpid hdet hnone
    simp [scanContents, hpid, hdet, hnone]
  · intro game rest detail pv hpid hdet hpv hshape
    cases pv <;> simp [Json.isStr] at hshape ⊢ <;>
      simp [scanContents, hpid, hdet, hpv]

/-- Witness for C4 (amended): a `contents` key of wrong type yields `None`. -/
theorem detect_defensive_amended_witness :
    detect_install_dir_from_json (fun _ => false)
        (Json.obj [("contents", Json.str "x")]) = DetectResult.ret none :=
  (detect_defensive_amended (fun _ => false)).2.1
    [("contents", Json.str "x")] (Json.str "x") rfl rfl

/-- **C10**: the scan stops at the first entry whose `productId` is
`"umamusume"`: when that entry's `detail.path` is not an existing directory,
the whole strategy returns `None` immediately, whatever entries follow. -/
theorem detect_stops_at_first_match (is_dir : String → Bool) (p : String)
    (game : List (String × Json)) (detail : List (String × Json))
    (hpid : game.lookup "productId" = some (Json.str "umamusume"))
    (hdet : game.lookup "detail" = some (Json.obj detail))
    (hpath : detail.lookup "path" = some (Json.str p))
    (hdir : is_dir p = false) :
    ∀ rest : List Json,
      scanContents is_dir (Json.obj game :: rest) = DetectResult.ret none ∧
      detect_install_dir_from_json is_dir
          (Json.obj [("contents", Json.arr (Json.obj game :: rest))])
        = DetectResult.ret none := by
  intro rest
  have hscan : scanContents is_dir (Json.obj game :: rest) = DetectResult.ret none := by
    simp [scanContents, hpid, hdet, hpath, hdir]
  exact ⟨hscan, by simp [detect_install_dir_from_json, List.lookup, hscan]⟩

/-- Witness for C10: the first matching entry has a dead path while a later
entry has a live one; the strategy still returns `None`. -/
theorem detect_stops_at_first_match_witness :
    detect_install_dir_from_json (fun s => s == "E:")
        (Json.obj [("contents", Json.arr
          [Json.obj [("productId", Json.str "umamusume"),
                     ("detail", Json.obj [("path", Json.str "Z:")])],
           Json.obj [("productId", Json.str "umamusume"),
                     ("detail", Json.obj [("path", Json.str "E:")])]])])
      = DetectResult.ret none :=
  (detect_stops_at_first_match (fun s => s == "E:") "Z:"
      [("productId", Json.str "umamusume"), ("detail", Json.obj [("path", Json.str "Z:")])]
      [("path", Json.str "Z:")] rfl rfl rfl rfl
      [Json.obj [("productId", Json.str "umamusume"),
                 ("detail", Json.obj [("path", Json.str "E:")])]]).2

end Hachimi
